import Mathlib

/-!
Shallow embedding of `src/E_Product_Management.cpp` (an e-commerce
product/cart/order system) and verification of its specification.

Modelling conventions:
* `double` prices are modelled as exact rationals (`ℚ`); the decimal
  literals `0.90`, `0.70`, `0.95` of the source are exact in `ℚ`.
* `uid_t` (product and order identifiers) and `size_t` (quantities) are
  modelled as `Nat`.
* `std::unordered_map<uid_t, pair<shared_ptr<Product>, size_t>>` is
  modelled as an association list `List (Nat × Product × Nat)`
  (key, product, quantity); iteration order of the hash map is
  unspecified in C++ and irrelevant here since totals are sums in `ℚ`.
* A possibly-null `shared_ptr<Product>` argument is an `Option Product`;
  entries stored in the cart hold a `Product` value directly, since
  `addProduct` filters out the null pointer before storing.
* The static atomic order-id counter `Order::nextOrderId` is threaded
  explicitly through `Order.make` and the `Shop` state.
* Wall-clock data (`created_at`) and console printing are not modelled.
-/

namespace ECommerce

/-- The variant-specific data of the three concrete product classes
(`Electronics`, `Clothing`, `Grocery`). -/
inductive Variant where
  | electronics (warranty_months : Int)
  | clothing (size : String) (on_clearance : Bool)
  | grocery (expiry_date : String)
deriving DecidableEq

/-- The `Product` base-class data (id, name, price, sku) together with the
dynamic type of the object. -/
structure Product where
  id : Nat
  name : String
  price : ℚ
  sku : String
  variant : Variant
deriving DecidableEq

/-- `Product::getBasePrice()`. -/
def Product.getBasePrice (p : Product) : ℚ := p.price

/-- `Product::getId()`. -/
def Product.getId (p : Product) : Nat := p.id

/-- Whether `dynamic_cast<const IDiscount*>` on the object succeeds:
`Electronics` and `Clothing` derive from `IDiscount`, `Grocery` does not. -/
def Product.implementsIDiscount (p : Product) : Bool :=
  match p.variant with
  | .electronics _ => true
  | .clothing _ _ => true
  | .grocery _ => false

/-- `IDiscount::applyDiscount(price)` as overridden by each variant that
implements `IDiscount`. `Grocery` does not implement the interface; the
source never calls `applyDiscount` on it (every call site is guarded by
the `dynamic_cast`), so its branch here is the identity. -/
def Product.applyDiscount (p : Product) (price : ℚ) : ℚ :=
  match p.variant with
  | .electronics _ => price * 0.90
  | .clothing _ c => if c then price * 0.70 else price * 0.95
  | .grocery _ => price

/-- The virtual `finalPrice()`: overridden by `Electronics` and `Clothing`
to apply their discount to the stored price; `Grocery` inherits
`Product::finalPrice`, which returns the stored price unchanged. -/
def Product.finalPrice (p : Product) : ℚ :=
  match p.variant with
  | .electronics _ => p.applyDiscount p.price
  | .clothing _ _ => p.applyDiscount p.price
  | .grocery _ => p.price

/-- `ShoppingCart`: the map product id → (product, quantity). -/
structure ShoppingCart where
  items : List (Nat × Product × Nat)
deriving DecidableEq

/-- `ShoppingCart()`: the default-constructed empty cart. -/
def emptyCart : ShoppingCart := ⟨[]⟩

/-- `items.find(id)` on the cart's map, returning the mapped pair. -/
def ShoppingCart.find (c : ShoppingCart) (id : Nat) : Option (Product × Nat) :=
  c.items.lookup id

/-- `ShoppingCart::addProduct(p, qty)`: no-op on a null pointer or zero
quantity; otherwise `emplace` a fresh entry when the id is absent, else
increment the existing entry's quantity. -/
def ShoppingCart.addProduct (c : ShoppingCart) (p : Option Product) (qty : Nat) :
    ShoppingCart :=
  match p with
  | none => c
  | some p =>
    if qty = 0 then c
    else
      match c.items.lookup p.id with
      | none => ⟨(p.id, p, qty) :: c.items⟩
      | some _ =>
        ⟨c.items.map (fun e => if e.1 = p.id then (e.1, e.2.1, e.2.2 + qty) else e)⟩

/-- `ShoppingCart::removeProduct(id, qty)`: no-op when the id is absent;
erase the entry when `qty >= held`, else decrement the held quantity. -/
def ShoppingCart.removeProduct (c : ShoppingCart) (id : Nat) (qty : Nat) :
    ShoppingCart :=
  match c.items.lookup id with
  | none => c
  | some (_, q) =>
    if q ≤ qty then ⟨c.items.filter (fun e => e.1 != id)⟩
    else ⟨c.items.map (fun e => if e.1 = id then (e.1, e.2.1, e.2.2 - qty) else e)⟩

/-- `ShoppingCart::operator+=`: delegates to `addProduct(p, 1)`. -/
def ShoppingCart.opPlusEq (c : ShoppingCart) (p : Option Product) : ShoppingCart :=
  c.addProduct p 1

/-- The free `operator+(cart, p)`: copies the cart and delegates to
`addProduct(p, 1)` on the copy. -/
def ShoppingCart.opPlus (c : ShoppingCart) (p : Option Product) : ShoppingCart :=
  c.addProduct p 1

/-- `ShoppingCart::total()`: fold over the entries, adding
`applyDiscount(basePrice) * qty` when the product implements `IDiscount`
and `basePrice * qty` otherwise. -/
def ShoppingCart.total (c : ShoppingCart) : ℚ :=
  c.items.foldl
    (fun sum kv =>
      if kv.2.1.implementsIDiscount then
        sum + kv.2.1.applyDiscount kv.2.1.getBasePrice * (kv.2.2 : ℚ)
      else
        sum + kv.2.1.getBasePrice * (kv.2.2 : ℚ))
    0

/-- `ShoppingCart::empty()`. -/
def ShoppingCart.empty (c : ShoppingCart) : Bool := c.items.isEmpty

/-- `ShoppingCart::itemsSnapshot()`: returns the map by value (a copy). -/
def ShoppingCart.itemsSnapshot (c : ShoppingCart) : List (Nat × Product × Nat) :=
  c.items

/-- `ShoppingCart::clear()`. -/
def ShoppingCart.clear (_ : ShoppingCart) : ShoppingCart := ⟨[]⟩

/-- The per-entry price used by `total()`: the `dynamic_cast` branch. -/
def cartEntryPrice (p : Product) : ℚ :=
  if p.implementsIDiscount then p.applyDiscount p.getBasePrice else p.getBasePrice

/-- `enum class OrderStatus`. -/
inductive OrderStatus where
  | Created | Paid | Shipped | Cancelled
deriving DecidableEq

/-- `Order`: id, copied item map, status (`created_at` not modelled). -/
structure Order where
  order_id : Nat
  items : List (Nat × Product × Nat)
  status : OrderStatus
deriving DecidableEq

/-- `Order::Order(const ShoppingCart&)`: `order_id(++nextOrderId)`,
`items(cart.itemsSnapshot())`, `status(OrderStatus::Created)`. The static
counter is passed in and the incremented value is returned alongside. -/
def Order.make (cart : ShoppingCart) (nextOrderId : Nat) : Order × Nat :=
  (⟨nextOrderId + 1, cart.itemsSnapshot, OrderStatus.Created⟩, nextOrderId + 1)

/-- `Order::total()`: the same discount-aware fold as the cart's, over the
frozen snapshot. -/
def Order.total (o : Order) : ℚ :=
  o.items.foldl
    (fun sum kv =>
      if kv.2.1.implementsIDiscount then
        sum + kv.2.1.applyDiscount kv.2.1.getBasePrice * (kv.2.2 : ℚ)
      else
        sum + kv.2.1.getBasePrice * (kv.2.2 : ℚ))
    0

/-- `Order::pay()`. -/
def Order.pay (o : Order) : Order := { o with status := OrderStatus.Paid }

/-- `Order::ship()`. -/
def Order.ship (o : Order) : Order := { o with status := OrderStatus.Shipped }

/-- `Order::cancel()`. -/
def Order.cancel (o : Order) : Order := { o with status := OrderStatus.Cancelled }

/-- A single cart mutation from the cart's public interface. -/
inductive CartOp where
  | add (p : Option Product) (qty : Nat)
  | remove (id : Nat) (qty : Nat)
  | clear
  | plusEq (p : Option Product)
  | plus (p : Option Product)
deriving DecidableEq

/-- Apply one cart mutation. -/
def applyCartOp (c : ShoppingCart) : CartOp → ShoppingCart
  | .add p q => c.addProduct p q
  | .remove i q => c.removeProduct i q
  | .clear => c.clear
  | .plusEq p => c.opPlusEq p
  | .plus p => c.opPlus p

/-- Apply a sequence of cart mutations. -/
def applyCartOps (c : ShoppingCart) (ops : List CartOp) : ShoppingCart :=
  ops.foldl applyCartOp c

/-- The process state touched by the order/cart lifecycle: the cart, the
static counter `Order::nextOrderId`, and the orders constructed so far. -/
structure Shop where
  cart : ShoppingCart
  nextOrderId : Nat
  orders : List Order
deriving DecidableEq

/-- One step of the process: either a cart mutation or an `Order`
construction from the current cart. -/
inductive ShopOp where
  | cartOp (op : CartOp)
  | placeOrder
deriving DecidableEq

/-- Recogniser for the order-construction step. -/
def ShopOp.isPlaceOrder : ShopOp → Bool
  | .placeOrder => true
  | .cartOp _ => false

/-- Apply one process step. -/
def Shop.step (s : Shop) : ShopOp → Shop
  | .cartOp op => { s with cart := applyCartOp s.cart op }
  | .placeOrder =>
    let r := Order.make s.cart s.nextOrderId
    { s with nextOrderId := r.2, orders := s.orders ++ [r.1] }

/-- Apply a sequence of process steps. -/
def Shop.run (s : Shop) (ops : List ShopOp) : Shop :=
  ops.foldl Shop.step s

/-- Process start state: empty cart, `Order::nextOrderId{0}`, no orders. -/
def initShop : Shop := ⟨emptyCart, 0, []⟩

/-- The demo products built in `main`. -/
def demoElectronics : Product :=
  ⟨1, "Smartphone", 699.99, "ELEC-100", Variant.electronics 12⟩

/-- Demo clothing product from `main`. -/
def demoClothing : Product :=
  ⟨2, "Leather Jacket", 250.00, "CLOTH-200", Variant.clothing "L" false⟩

/-- Demo grocery product from `main`. -/
def demoGrocery : Product :=
  ⟨3, "Organic Milk", 3.49, "GROC-300", Variant.grocery "2025-12-01"⟩

/-! ### Helper lemmas -/

/-- The `dynamic_cast`-based per-entry price of the total loops agrees with
the virtual `finalPrice()` on every product. -/
theorem cartEntryPrice_eq_finalPrice (p : Product) : cartEntryPrice p = p.finalPrice := by
  cases p with
  | mk id nm pr sk v =>
    cases v <;>
      simp [cartEntryPrice, Product.implementsIDiscount, Product.finalPrice,
        Product.getBasePrice]

/-- The fold used by `ShoppingCart::total` / `Order::total`, rewritten as a
sum over the mapped entry prices. -/
theorem totalFold_eq (l : List (Nat × Product × Nat)) (a : ℚ) :
    l.foldl
      (fun sum kv =>
        if kv.2.1.implementsIDiscount then
          sum + kv.2.1.applyDiscount kv.2.1.getBasePrice * (kv.2.2 : ℚ)
        else
          sum + kv.2.1.getBasePrice * (kv.2.2 : ℚ))
      a
    = a + (l.map (fun kv => cartEntryPrice kv.2.1 * (kv.2.2 : ℚ))).sum := by
  induction l generalizing a with
  | nil => simp
  | cons x xs ih =>
    cases hb : x.2.1.implementsIDiscount <;>
      simp [ih, cartEntryPrice, hb, add_assoc]

/-- `ShoppingCart::total` as a sum over entries. -/
theorem cart_total_eq (c : ShoppingCart) :
    c.total = (c.items.map (fun kv => cartEntryPrice kv.2.1 * (kv.2.2 : ℚ))).sum := by
  simpa using totalFold_eq c.items 0

/-- `Order::total` as a sum over entries. -/
theorem order_total_eq (o : Order) :
    o.total = (o.items.map (fun kv => cartEntryPrice kv.2.1 * (kv.2.2 : ℚ))).sum := by
  simpa using totalFold_eq o.items 0

/-- Looking a key up after updating (only) that key's quantity in place. -/
theorem lookup_map_qty (k : Nat) (f : Nat → Nat) (l : List (Nat × Product × Nat)) :
    List.lookup k (l.map (fun e => if e.1 = k then (e.1, e.2.1, f e.2.2) else e))
      = (List.lookup k l).map (fun pq => (pq.1, f pq.2)) := by
  induction l with
  | nil => rfl
  | cons x xs ih =>
    obtain ⟨xk, xp, xq⟩ := x
    rw [List.map_cons]
    by_cases h : xk = k
    · subst h
      rw [if_pos rfl]
      simp [List.lookup]
    · have hb : (k == xk) = false := by
        simpa using fun he => h he.symm
      rw [if_neg h]
      simp [List.lookup, hb, ih]

/-- Looking a key up after filtering out every entry with that key. -/
theorem lookup_filter_ne (k : Nat) (l : List (Nat × Product × Nat)) :
    List.lookup k (l.filter (fun e => e.1 != k)) = none := by
  induction l with
  | nil => rfl
  | cons x xs ih =>
    obtain ⟨xk, xp, xq⟩ := x
    by_cases h : xk = k
    · simp [List.filter_cons, h, ih]
    · have hb : (k == xk) = false := by
        simpa using fun he => h he.symm
      simp [List.filter_cons, h, List.lookup, hb, ih]

/-- `addProduct` with a null pointer is the identity. -/
theorem addProduct_none (c : ShoppingCart) (q : Nat) : c.addProduct none q = c := rfl

/-- `addProduct` with quantity `0` is the identity. -/
theorem addProduct_zero (c : ShoppingCart) (p : Product) :
    c.addProduct (some p) 0 = c := by
  simp [ShoppingCart.addProduct]

/-- `addProduct` on an absent id stores the fresh entry `(p, q)`. -/
theorem find_addProduct_new (c : ShoppingCart) (p : Product) (q : Nat) (hq : q ≠ 0)
    (h : c.find p.id = none) :
    (c.addProduct (some p) q).find p.id = some (p, q) := by
  have h' : c.items.lookup p.id = none := h
  simp [ShoppingCart.addProduct, hq, h', ShoppingCart.find, List.lookup]

/-- `addProduct` on a present id increments the held quantity, keeping the
originally stored product. -/
theorem find_addProduct_existing (c : ShoppingCart) (p : Product) (q : Nat)
    (p0 : Product) (q0 : Nat) (hq : q ≠ 0) (h : c.find p.id = some (p0, q0)) :
    (c.addProduct (some p) q).find p.id = some (p0, q0 + q) := by
  have h' : c.items.lookup p.id = some (p0, q0) := h
  simp only [ShoppingCart.addProduct, if_neg hq, h', ShoppingCart.find]
  rw [lookup_map_qty p.id (fun n => n + q) c.items, h']
  rfl

/-- `removeProduct` on an absent id is the identity. -/
theorem removeProduct_absent (c : ShoppingCart) (id q : Nat) (h : c.find id = none) :
    c.removeProduct id q = c := by
  have h' : c.items.lookup id = none := h
  simp [ShoppingCart.removeProduct, h']

/-- `removeProduct` erases the entry when the request covers the held
quantity. -/
theorem find_removeProduct_erase (c : ShoppingCart) (id q : Nat) (p0 : Product)
    (q0 : Nat) (h : c.find id = some (p0, q0)) (hq : q0 ≤ q) :
    (c.removeProduct id q).find id = none := by
  have h' : c.items.lookup id = some (p0, q0) := h
  simp [ShoppingCart.removeProduct, h', hq, ShoppingCart.find, lookup_filter_ne]

/-- `removeProduct` decrements the held quantity when the request is
smaller than it. -/
theorem find_removeProduct_dec (c : ShoppingCart) (id q : Nat) (p0 : Product)
    (q0 : Nat) (h : c.find id = some (p0, q0)) (hq : q < q0) :
    (c.removeProduct id q).find id = some (p0, q0 - q) := by
  have h' : c.items.lookup id = some (p0, q0) := h
  have hn : ¬ q0 ≤ q := by omega
  simp only [ShoppingCart.removeProduct, h', if_neg hn, ShoppingCart.find]
  rw [lookup_map_qty id (fun n => n - q) c.items, h']
  rfl

/-! ### Claim theorems -/

/-- **C1**: for every cart state, `ShoppingCart::total()` returns the sum
over all held entries of (the product's discount rule applied to its base
price, or the base price if the product implements no discount rule)
multiplied by that entry's quantity — equivalently of
`finalPrice(product) * quantity` — and an empty cart's total is `0`. -/
theorem shoppingCart_total_spec (c : ShoppingCart) :
    c.total
      = (c.items.map (fun kv =>
          (if kv.2.1.implementsIDiscount then
            kv.2.1.applyDiscount kv.2.1.getBasePrice
          else kv.2.1.getBasePrice) * (kv.2.2 : ℚ))).sum ∧
    c.total = (c.items.map (fun kv => kv.2.1.finalPrice * (kv.2.2 : ℚ))).sum ∧
    (c.empty = true → c.total = 0) := by
  refine ⟨?_, ?_, fun h => ?_⟩
  · rw [cart_total_eq c]
    simp [cartEntryPrice]
  · rw [cart_total_eq c]
    simp [cartEntryPrice_eq_finalPrice]
  · have hi : c.items = [] := by
      simpa [ShoppingCart.empty, List.isEmpty_iff] using h
    simp [ShoppingCart.total, hi]

/-- Witness for C1, discharging the emptiness hypothesis at the empty cart. -/
theorem shoppingCart_total_spec_witness : emptyCart.total = 0 :=
  (shoppingCart_total_spec emptyCart).2.2 rfl

/-- **C5**: every `Electronics` product with base price `P` has
`finalPrice() = P * 0.90`, regardless of the warranty duration. -/
theorem electronics_finalPrice_spec (id : Nat) (nm : String) (P : ℚ) (sk : String)
    (w : Int) :
    (Product.mk id nm P sk (Variant.electronics w)).finalPrice = P * 0.90 := rfl

/-- **C6**: every `Clothing` product with base price `P` has
`finalPrice() = P * 0.70` when on clearance and `P * 0.95` otherwise. -/
theorem clothing_finalPrice_spec (id : Nat) (nm : String) (P : ℚ) (sk sz : String) :
    (Product.mk id nm P sk (Variant.clothing sz true)).finalPrice = P * 0.70 ∧
    (Product.mk id nm P sk (Variant.clothing sz false)).finalPrice = P * 0.95 :=
  ⟨rfl, rfl⟩

/-- **C7**: every `Grocery` product with base price `P` has
`finalPrice() = P`: it does not implement `IDiscount`, so the totals'
`dynamic_cast` branch falls back to the base price. -/
theorem grocery_finalPrice_spec (id : Nat) (nm : String) (P : ℚ) (sk ex : String) :
    (Product.mk id nm P sk (Variant.grocery ex)).finalPrice = P ∧
    (Product.mk id nm P sk (Variant.grocery ex)).implementsIDiscount = false ∧
    cartEntryPrice (Product.mk id nm P sk (Variant.grocery ex)) = P :=
  ⟨rfl, rfl, rfl⟩

/-- **C3**: `addProduct(p, q)` leaves the cart unchanged when `p` is null or
`q = 0`; otherwise it inserts a fresh entry `(p, q)` when `p`'s identity is
absent, and increments the held quantity by `q` when it is present — so
`add(p,1)` then `add(p,2)` yields held quantity `3` for `p`'s identity. -/
theorem addProduct_spec (c : ShoppingCart) (p : Product) (q : Nat) :
    c.addProduct none q = c ∧
    c.addProduct (some p) 0 = c ∧
    (q ≠ 0 → c.find p.id = none →
      (c.addProduct (some p) q).find p.id = some (p, q)) ∧
    (∀ p0 q0, q ≠ 0 → c.find p.id = some (p0, q0) →
      (c.addProduct (some p) q).find p.id = some (p0, q0 + q)) ∧
    (c.find p.id = none →
      ((c.addProduct (some p) 1).addProduct (some p) 2).find p.id = some (p, 3)) := by
  refine ⟨addProduct_none c q, addProduct_zero c p,
    fun hq h => find_addProduct_new c p q hq h,
    fun p0 q0 hq h => find_addProduct_existing c p q p0 q0 hq h,
    fun h => ?_⟩
  have h1 : (c.addProduct (some p) 1).find p.id = some (p, 1) :=
    find_addProduct_new c p 1 one_ne_zero h
  have h2 := find_addProduct_existing (c.addProduct (some p) 1) p 2 p 1 two_ne_zero h1
  simpa using h2

/-- Witness for C3: fresh insertion, accumulation `1 + 2 = 3`, and the
increment rule, at concrete inputs. -/
theorem addProduct_spec_witness :
    (emptyCart.addProduct (some demoElectronics) 2).find demoElectronics.id
        = some (demoElectronics, 2) ∧
    ((emptyCart.addProduct (some demoElectronics) 1).addProduct
        (some demoElectronics) 2).find demoElectronics.id
        = some (demoElectronics, 3) ∧
    ((emptyCart.addProduct (some demoElectronics) 1).addProduct
        (some demoElectronics) 2).find demoElectronics.id
        = some (demoElectronics, 1 + 2) :=
  ⟨(addProduct_spec emptyCart demoElectronics 2).2.2.1 (by decide) rfl,
   (addProduct_spec emptyCart demoElectronics 2).2.2.2.2 rfl,
   (addProduct_spec (emptyCart.addProduct (some demoElectronics) 1)
      demoElectronics 2).2.2.2.1 demoElectronics 1 (by decide) rfl⟩

/-- **C4**: `removeProduct(id, q)` leaves the cart unchanged when `id` is
absent (and never throws); otherwise it deletes the entry when `q` is at
least the held quantity, and decrements the held quantity by `q` when
`q` is smaller — the remaining quantity stays at least `1`, never
negative. -/
theorem removeProduct_spec (c : ShoppingCart) (id q : Nat) :
    (c.find id = none → c.removeProduct id q = c) ∧
    (∀ p0 q0, c.find id = some (p0, q0) →
      (q0 ≤ q → (c.removeProduct id q).find id = none) ∧
      (q < q0 →
        (c.removeProduct id q).find id = some (p0, q0 - q) ∧ 1 ≤ q0 - q)) := by
  refine ⟨fun h => removeProduct_absent c id q h, fun p0 q0 h => ⟨?_, ?_⟩⟩
  · exact fun hq => find_removeProduct_erase c id q p0 q0 h hq
  · exact fun hq => ⟨find_removeProduct_dec c id q p0 q0 h hq, by omega⟩

/-- Witness for C4: over-removal deletes the entry, partial removal
decrements it, and removing an absent id is a no-op, at concrete inputs. -/
theorem removeProduct_spec_witness :
    ((emptyCart.addProduct (some demoElectronics) 2).removeProduct 1 5).find 1
        = none ∧
    (((emptyCart.addProduct (some demoElectronics) 2).removeProduct 1 1).find 1
        = some (demoElectronics, 1) ∧ 1 ≤ 1) ∧
    emptyCart.removeProduct 999 1 = emptyCart :=
  ⟨((removeProduct_spec (emptyCart.addProduct (some demoElectronics) 2) 1 5).2
      demoElectronics 2 rfl).1 (by decide),
   ((removeProduct_spec (emptyCart.addProduct (some demoElectronics) 2) 1 1).2
      demoElectronics 2 rfl).2 (by decide),
   (removeProduct_spec emptyCart 999 1).1 rfl⟩

/-- `Shop.run` on `[]`. -/
theorem Shop.run_nil (s : Shop) : s.run [] = s := rfl

/-- `Shop.run` on a cons. -/
theorem Shop.run_cons (s : Shop) (op : ShopOp) (ops : List ShopOp) :
    s.run (op :: ops) = (s.step op).run ops := rfl

/-- Cart mutations never touch the list of already-constructed orders. -/
theorem run_cartOps_orders (ops : List CartOp) (s : Shop) :
    (s.run (ops.map ShopOp.cartOp)).orders = s.orders := by
  induction ops generalizing s with
  | nil => rfl
  | cons op ops ih =>
    rw [List.map_cons, Shop.run_cons, ih]
    rfl

/-- **C2**: once an `Order` has been constructed from the cart, any
sequence of cart mutations leaves the constructed orders — in particular
the new order's item map and `Order::total()` — unchanged (snapshot
semantics: the constructor copies the cart's item map by value). -/
theorem order_snapshot_spec (s : Shop) (ops : List CartOp) :
    ((s.step ShopOp.placeOrder).run (ops.map ShopOp.cartOp)).orders
        = (s.step ShopOp.placeOrder).orders ∧
    ((s.step ShopOp.placeOrder).run (ops.map ShopOp.cartOp)).orders.map Order.items
        = (s.step ShopOp.placeOrder).orders.map Order.items ∧
    ((s.step ShopOp.placeOrder).run (ops.map ShopOp.cartOp)).orders.map Order.total
        = (s.step ShopOp.placeOrder).orders.map Order.total := by
  refine ⟨run_cartOps_orders ops _, ?_, ?_⟩ <;> rw [run_cartOps_orders ops _]

/-- Running any step sequence: the constructed order ids continue the
counter as `counter+1, counter+2, …`, and the counter advances by the
number of order constructions. -/
theorem run_order_ids (ops : List ShopOp) (s : Shop) :
    (s.run ops).orders.map Order.order_id
        = s.orders.map Order.order_id
          ++ List.range' (s.nextOrderId + 1) (ops.countP ShopOp.isPlaceOrder) ∧
    (s.run ops).nextOrderId = s.nextOrderId + ops.countP ShopOp.isPlaceOrder := by
  induction ops generalizing s with
  | nil => simp [Shop.run_nil]
  | cons op ops ih =>
    rw [Shop.run_cons]
    obtain ⟨h1, h2⟩ := ih (s.step op)
    cases op with
    | cartOp c =>
      rw [h1, h2]
      simp [Shop.step, List.countP_cons_of_neg, ShopOp.isPlaceOrder]
    | placeOrder =>
      rw [h1, h2]
      have hc : (ShopOp.placeOrder :: ops).countP ShopOp.isPlaceOrder
          = ops.countP ShopOp.isPlaceOrder + 1 :=
        List.countP_cons_of_pos _ _ rfl
      rw [hc]
      constructor
      · simp only [Shop.step, Order.make, ShoppingCart.itemsSnapshot, List.map_append,
          List.map_cons, List.map_nil, List.range'_succ, List.append_assoc,
          List.singleton_append]
      · simp only [Shop.step, Order.make]
        omega

/-- **C8**: starting from the process start state (counter `0`), the ids of
the orders constructed by any step sequence are `1, 2, …, n` in
construction order — the `n`-th order gets id `n` — hence strictly
increasing and never reused. -/
theorem order_ids_spec (ops : List ShopOp) :
    (initShop.run ops).orders.map Order.order_id
        = List.range' 1 (ops.countP ShopOp.isPlaceOrder) ∧
    ((initShop.run ops).orders.map Order.order_id).Pairwise (· < ·) ∧
    ((initShop.run ops).orders.map Order.order_id).Nodup := by
  have he : (initShop.run ops).orders.map Order.order_id
      = List.range' 1 (ops.countP ShopOp.isPlaceOrder) := by
    have h := (run_order_ids ops initShop).1
    simpa [initShop] using h
  refine ⟨he, ?_, ?_⟩
  · rw [he]; exact List.pairwise_lt_range' _ _
  · rw [he]; exact List.nodup_range' _ _

/-- Well-formedness of the cart's association list as a map: keys are
distinct, and every entry has quantity at least `1` and is keyed by its
product's identity. -/
def cartWF (c : ShoppingCart) : Prop :=
  (c.items.map (fun e => e.1)).Nodup ∧ ∀ e ∈ c.items, 1 ≤ e.2.2 ∧ e.2.1.id = e.1

/-- The empty cart is well-formed. -/
theorem cartWF_emptyCart : cartWF emptyCart :=
  ⟨List.nodup_nil, fun e he => absurd he (List.not_mem_nil e)⟩

/-- A failed lookup means no entry carries the key. -/
theorem keys_ne_of_lookup_none (k : Nat) (l : List (Nat × Product × Nat))
    (h : List.lookup k l = none) : ∀ e ∈ l, e.1 ≠ k := by
  induction l with
  | nil => intro e he; cases he
  | cons x xs ih =>
    obtain ⟨xk, xv⟩ := x
    intro e he
    by_cases hk : k = xk
    · subst hk
      simp [List.lookup] at h
    · have hb : (k == xk) = false := by simpa using hk
      have ht : List.lookup k xs = none := by simpa [List.lookup, hb] using h
      rcases List.mem_cons.mp he with rfl | hm
      · exact fun he' => hk he'.symm
      · exact ih ht e hm

/-- Updating quantities in place preserves the key list. -/
theorem keys_map_qty (k : Nat) (f : Nat → Nat) (l : List (Nat × Product × Nat)) :
    (l.map (fun e => if e.1 = k then (e.1, e.2.1, f e.2.2) else e)).map (fun e => e.1)
      = l.map (fun e => e.1) := by
  induction l with
  | nil => rfl
  | cons x xs ih =>
    by_cases h : x.1 = k <;> simp [h, ih]

/-- With distinct keys, a successful lookup pins down the stored value of
every entry carrying the key. -/
theorem mem_val_of_lookup_nodup (k : Nat) (v : Product × Nat)
    (l : List (Nat × Product × Nat)) (hnd : (l.map (fun e => e.1)).Nodup)
    (hl : List.lookup k l = some v) : ∀ e ∈ l, e.1 = k → e.2 = v := by
  induction l with
  | nil => intro e he; cases he
  | cons x xs ih =>
    obtain ⟨xk, xv⟩ := x
    obtain ⟨hx, hnd'⟩ := List.nodup_cons.mp hnd
    intro e he hek
    rcases List.mem_cons.mp he with rfl | hm
    · have hb : (k == xk) = true := by simpa using hek.symm
      have : some xv = some v := by simpa [List.lookup, hb] using hl
      simpa using this
    · by_cases hk : xk = k
      · exact absurd (List.mem_map.mpr ⟨e, hm, hek.trans hk.symm⟩) hx
      · have hb : (k == xk) = false := by simpa using fun he' => hk he'.symm
        have ht : List.lookup k xs = some v := by simpa [List.lookup, hb] using hl
        exact ih hnd' ht e hm hek

/-- `addProduct` preserves cart well-formedness. -/
theorem cartWF_addProduct (c : ShoppingCart) (p : Option Product) (q : Nat)
    (h : cartWF c) : cartWF (c.addProduct p q) := by
  obtain ⟨hnd, hent⟩ := h
  match p with
  | none => exact ⟨hnd, hent⟩
  | some p =>
    by_cases hq : q = 0
    · rw [hq, addProduct_zero]
      exact ⟨hnd, hent⟩
    · cases hl : c.items.lookup p.id with
      | none =>
        have heq : c.addProduct (some p) q = ⟨(p.id, p, q) :: c.items⟩ := by
          simp [ShoppingCart.addProduct, if_neg hq, hl]
        rw [heq]
        refine ⟨List.nodup_cons.mpr ⟨?_, hnd⟩, ?_⟩
        · intro hmem
          obtain ⟨e, hm, he⟩ := List.mem_map.mp hmem
          exact keys_ne_of_lookup_none p.id c.items hl e hm he
        · intro e he
          rcases List.mem_cons.mp he with rfl | hm
          · exact ⟨Nat.one_le_iff_ne_zero.mpr hq, rfl⟩
          · exact hent e hm
      | some v =>
        have heq : c.addProduct (some p) q
            = ⟨c.items.map (fun e => if e.1 = p.id then (e.1, e.2.1, e.2.2 + q) else e)⟩ := by
          simp [ShoppingCart.addProduct, if_neg hq, hl]
        rw [heq]
        refine ⟨?_, ?_⟩
        · show (List.map (fun e => e.1)
              (List.map (fun e => if e.1 = p.id then (e.1, e.2.1, e.2.2 + q) else e)
                c.items)).Nodup
          rw [keys_map_qty p.id (fun n => n + q) c.items]
          exact hnd
        intro e he
        obtain ⟨a, ha, hae⟩ := List.mem_map.mp he
        by_cases hk : a.1 = p.id
        · obtain ⟨ha1, ha2⟩ := hent a ha
          subst hae
          simp only [if_pos hk]
          exact ⟨le_trans ha1 (Nat.le_add_right _ _), ha2⟩
        · subst hae
          simp only [if_neg hk]
          exact hent a ha

/-- `removeProduct` preserves cart well-formedness. -/
theorem cartWF_removeProduct (c : ShoppingCart) (id q : Nat) (h : cartWF c) :
    cartWF (c.removeProduct id q) := by
  obtain ⟨hnd, hent⟩ := h
  cases hl : c.items.lookup id with
  | none =>
    rw [removeProduct_absent c id q hl]
    exact ⟨hnd, hent⟩
  | some v =>
    obtain ⟨p0, q0⟩ := v
    by_cases hle : q0 ≤ q
    · have heq : c.removeProduct id q = ⟨c.items.filter (fun e => e.1 != id)⟩ := by
        simp [ShoppingCart.removeProduct, hl, hle]
      rw [heq]
      refine ⟨List.Nodup.sublist (List.Sublist.map _ (List.filter_sublist _)) hnd, ?_⟩
      intro e he
      exact hent e (List.mem_of_mem_filter he)
    · have heq : c.removeProduct id q
          = ⟨c.items.map (fun e => if e.1 = id then (e.1, e.2.1, e.2.2 - q) else e)⟩ := by
        simp [ShoppingCart.removeProduct, hl, if_neg hle]
      rw [heq]
      refine ⟨?_, ?_⟩
      · show (List.map (fun e => e.1)
            (List.map (fun e => if e.1 = id then (e.1, e.2.1, e.2.2 - q) else e)
              c.items)).Nodup
        rw [keys_map_qty id (fun n => n - q) c.items]
        exact hnd
      intro e he
      obtain ⟨a, ha, hae⟩ := List.mem_map.mp he
      by_cases hk : a.1 = id
      · obtain ⟨ha1, ha2⟩ := hent a ha
        have hv : a.2 = (p0, q0) := mem_val_of_lookup_nodup id (p0, q0) c.items hnd hl a ha hk
        subst hae
        simp only [if_pos hk]
        refine ⟨?_, ha2⟩
        have : a.2.2 = q0 := by rw [hv]
        omega
      · subst hae
        simp only [if_neg hk]
        exact hent a ha

/-- Every cart operation preserves well-formedness. -/
theorem cartWF_applyCartOp (c : ShoppingCart) (op : CartOp) (h : cartWF c) :
    cartWF (applyCartOp c op) := by
  cases op with
  | add p q => exact cartWF_addProduct c p q h
  | remove i q => exact cartWF_removeProduct c i q h
  | clear => exact ⟨List.nodup_nil, fun e he => absurd he (List.not_mem_nil e)⟩
  | plusEq p => exact cartWF_addProduct c p 1 h
  | plus p => exact cartWF_addProduct c p 1 h

/-- Every sequence of cart operations preserves well-formedness. -/
theorem cartWF_applyCartOps (ops : List CartOp) (c : ShoppingCart) (h : cartWF c) :
    cartWF (applyCartOps c ops) := by
  induction ops generalizing c with
  | nil => exact h
  | cons op ops ih => exact ih _ (cartWF_applyCartOp c op h)

/-- **C9**: in every cart state reachable from the empty cart by
`addProduct`, `removeProduct`, `clear`, `operator+=` and `operator+`,
every held entry has quantity at least `1` and stores a product (never a
null pointer — entries hold a `Product` value by construction) whose
identity equals the entry's key. -/
theorem cart_reachable_invariant_spec (ops : List CartOp) :
    ∀ e ∈ (applyCartOps emptyCart ops).items, 1 ≤ e.2.2 ∧ e.2.1.id = e.1 :=
  (cartWF_applyCartOps ops emptyCart cartWF_emptyCart).2

/-- Witness for C9, discharging the membership hypothesis on the cart
reached by adding two smartphones. -/
theorem cart_reachable_invariant_spec_witness :
    1 ≤ ((1 : Nat), demoElectronics, (2 : Nat)).2.2 ∧
    ((1 : Nat), demoElectronics, (2 : Nat)).2.1.id = 1 :=
  cart_reachable_invariant_spec [CartOp.add (some demoElectronics) 2]
    (1, demoElectronics, 2) (List.Mem.head _)

/-- A product object with identity `7` (for identity-merging scenarios). -/
def pX : Product := ⟨7, "X", 100, "SKU-X", Variant.grocery "d1"⟩

/-- A second, distinct product object sharing identity `7`. -/
def pY : Product := ⟨7, "Y", 200, "SKU-Y", Variant.grocery "d2"⟩

/-- A third, distinct product object sharing identity `7`. -/
def pZ : Product := ⟨7, "Z", 300, "SKU-Z", Variant.grocery "d3"⟩

/-- Updating quantities in place preserves the number of entries carrying
the updated key. -/
theorem countP_key_map_qty (k : Nat) (f : Nat → Nat) (l : List (Nat × Product × Nat)) :
    (l.map (fun e => if e.1 = k then (e.1, e.2.1, f e.2.2) else e)).countP
      (fun e => e.1 == k) = l.countP (fun e => e.1 == k) := by
  induction l with
  | nil => rfl
  | cons x xs ih =>
    by_cases h : x.1 = k
    · rw [List.map_cons, if_pos h, List.countP_cons_of_pos _ _ (by simpa using h),
        List.countP_cons_of_pos _ _ (by simpa using h), ih]
    · rw [List.map_cons, if_neg h, List.countP_cons_of_neg _ _ (by simpa using h),
        List.countP_cons_of_neg _ _ (by simpa using h), ih]

/-- **C10 counterexample**: as stated — over *every* cart and arbitrary
quantities — the claim is false. With a pre-existing entry for the shared
identity (`pZ` with quantity 3), `add(pX,1); add(pY,2)` leaves quantity
`3+1+2 = 6` and the stored object `pZ`, not `(pX, 1+2)`; and with `q1 = 0`
on an empty cart the stored object after `add(pX,0); add(pY,2)` is `pY`,
not `pX`. -/
theorem addProduct_alias_counterexample :
    pX ≠ pY ∧ pX.id = pY.id ∧ pZ ≠ pX ∧ pZ.id = pX.id ∧
    (((emptyCart.addProduct (some pZ) 3).addProduct (some pX) 1).addProduct
        (some pY) 2).find pX.id = some (pZ, 6) ∧
    (some (pZ, 6) : Option (Product × Nat)) ≠ some (pX, 1 + 2) ∧
    ((emptyCart.addProduct (some pX) 0).addProduct (some pY) 2).find pX.id
        = some (pY, 2) ∧
    (some (pY, 2) : Option (Product × Nat)) ≠ some (pX, 0 + 2) := by
  refine ⟨by decide, rfl, by decide, rfl, rfl, by decide, rfl, by decide⟩

/-- **C10 (amended)**: for every cart holding *no* entry for the shared
identity and `q1 ≥ 1`: for any two product objects `p1`, `p2` with the
same identity, `addProduct(p1,q1)` then `addProduct(p2,q2)` leaves a
single entry for that identity, holding quantity `q1 + q2` and the
first-added object `p1`; `p2`'s name, price and pricing rule do not
influence the resulting cart (hence not its total) — replacing them
arbitrarily yields the same cart. (The original claim, quantified over
every cart and all quantities, fails when the identity is already present
or `q1 = 0`; see the counterexample.) -/
theorem addProduct_alias_spec (c : ShoppingCart) (p1 p2 : Product) (q1 q2 : Nat)
    (hid : p2.id = p1.id) (habs : c.find p1.id = none) (hq1 : q1 ≠ 0) :
    ((c.addProduct (some p1) q1).addProduct (some p2) q2).find p1.id
        = some (p1, q1 + q2) ∧
    ((c.addProduct (some p1) q1).addProduct (some p2) q2).items.countP
        (fun e => e.1 == p1.id) = 1 ∧
    ∀ nm pr sk vr,
      (c.addProduct (some p1) q1).addProduct (some p2) q2
        = (c.addProduct (some p1) q1).addProduct
            (some (Product.mk p2.id nm pr sk vr)) q2 := by
  have habs' : c.items.lookup p1.id = none := habs
  have h1 : (c.addProduct (some p1) q1).find p1.id = some (p1, q1) :=
    find_addProduct_new c p1 q1 hq1 habs
  have h1' : (c.addProduct (some p1) q1).find p2.id = some (p1, q1) := by
    rw [hid]; exact h1
  have heq1 : c.addProduct (some p1) q1 = ⟨(p1.id, p1, q1) :: c.items⟩ := by
    simp [ShoppingCart.addProduct, if_neg hq1, habs']
  have hc0 : c.items.countP (fun e => e.1 == p1.id) = 0 :=
    List.countP_eq_zero.mpr fun a ha => by
      simpa using keys_ne_of_lookup_none p1.id c.items habs' a ha
  have hc1 : ((p1.id, p1, q1) :: c.items).countP (fun e => e.1 == p1.id) = 1 := by
    rw [List.countP_cons_of_pos _ _ (by simp), hc0]
  refine ⟨?_, ?_, ?_⟩
  · by_cases hq2 : q2 = 0
    · rw [hq2, addProduct_zero]
      simpa using h1
    · have h2 := find_addProduct_existing (c.addProduct (some p1) q1) p2 q2 p1 q1 hq2 h1'
      rw [hid] at h2
      exact h2
  · by_cases hq2 : q2 = 0
    · rw [hq2, addProduct_zero, heq1]
      exact hc1
    · have hl2 : ((p1.id, p1, q1) :: c.items).lookup p2.id = some (p1, q1) := by
        rw [hid]
        simp [List.lookup]
      have heq2 : (⟨(p1.id, p1, q1) :: c.items⟩ : ShoppingCart).addProduct (some p2) q2
          = ⟨((p1.id, p1, q1) :: c.items).map
              (fun e => if e.1 = p2.id then (e.1, e.2.1, e.2.2 + q2) else e)⟩ := by
        simp [ShoppingCart.addProduct, if_neg hq2, hl2]
      rw [heq1, heq2]
      show (((p1.id, p1, q1) :: c.items).map
          (fun e => if e.1 = p2.id then (e.1, e.2.1, e.2.2 + q2) else e)).countP
          (fun e => e.1 == p1.id) = 1
      rw [hid, countP_key_map_qty p1.id (fun n => n + q2) _, hc1]
  · intro nm pr sk vr
    by_cases hq2 : q2 = 0
    · rw [hq2, addProduct_zero, addProduct_zero]
    · rw [heq1]
      have hl3 : ((p1.id, p1, q1) :: c.items).lookup p2.id = some (p1, q1) := by
        rw [hid]
        simp [List.lookup]
      simp only [ShoppingCart.addProduct, if_neg hq2, hl3]

/-- Witness for the amended C10: concrete distinct objects `pX`, `pY`
sharing identity `7`, added to the empty cart with quantities `1` and `2`. -/
theorem addProduct_alias_spec_witness :
    ((emptyCart.addProduct (some pX) 1).addProduct (some pY) 2).find pX.id
        = some (pX, 1 + 2) ∧
    ((emptyCart.addProduct (some pX) 1).addProduct (some pY) 2).items.countP
        (fun e => e.1 == pX.id) = 1 :=
  ⟨(addProduct_alias_spec emptyCart pX pY 1 2 rfl rfl (by decide)).1,
   (addProduct_alias_spec emptyCart pX pY 1 2 rfl rfl (by decide)).2.1⟩

end ECommerce
